import Mathlib

/-!
Verification of the receipt expense-tracking pipeline: the pydantic data model
(pydantic_model.py), the BigQuery persistence tool `log_expense_to_bigquery`
(tools.py) and the three-stage sequential pipeline (agent.py).

Python floats are modelled by exact decimal numbers (`PyFloat`), Python dicts
reaching the tool by `PyDict` over a small value universe `PyVal`, and the
BigQuery client by an explicit behaviour record (each client call either
succeeds or raises), so that the tool's error handling can be stated for every
behaviour of the store.
-/

namespace ExpensePipeline

/-- Decimal stand-in for a Python float: the value `mantissa / 10 ^ scale`.
Every float literal appearing in JSON has such a finite decimal form. -/
structure PyFloat where
  mantissa : Int
  scale : Nat
  deriving DecidableEq, Repr

/-- One purchased item (pydantic_model.py, `class LineItem`): description,
quantity and price, in declaration order. -/
structure LineItem where
  description : String
  quantity : Int
  price : PyFloat
  deriving DecidableEq, Repr

/-- A receipt (pydantic_model.py, `class Receipt`): vendor name, transaction
date, total amount, ordered line items, and an optional category defaulting
to `None`. -/
structure Receipt where
  vendor_name : String
  transaction_date : String
  total_amount : PyFloat
  line_items : List LineItem
  category : Option String
  deriving DecidableEq, Repr

/-! ## Decimal digit printing and parsing

The JSON blob built at tools.py line 62 contains integer and float literals;
these helpers print and parse their decimal digits. -/

/-- The character for the decimal digit `d` (intended for `d < 10`). -/
def digitChar (d : Nat) : Char := Char.ofNat (48 + d)

/-- Decimal digit characters of `n`, most significant first; empty for `0`. -/
def natDigitChars (n : Nat) : List Char := (Nat.digits 10 n).reverse.map digitChar

/-- Decimal rendering of a natural number (a single `0` for zero). -/
def natChars (n : Nat) : List Char := if n = 0 then [Char.ofNat 48] else natDigitChars n

/-- Consume a maximal run of decimal digits: returns the accumulated value,
the number of digits consumed, and the unconsumed tail. -/
def parseNatAux (acc cnt : Nat) : List Char → Nat × Nat × List Char
  | [] => (acc, cnt, [])
  | c :: rest =>
    if c.isDigit then parseNatAux (acc * 10 + (c.toNat - 48)) (cnt + 1) rest
    else (acc, cnt, c :: rest)

/-- `true` when the character list does not begin with a decimal digit. -/
def noDigitStart (cs : List Char) : Bool :=
  match cs with
  | [] => true
  | c :: _ => !c.isDigit

theorem digitChar_toNat (d : Nat) (hd : d < 10) : (digitChar d).toNat = 48 + d := by
  interval_cases d <;> decide

theorem digitChar_isDigit (d : Nat) (hd : d < 10) : (digitChar d).isDigit = true := by
  interval_cases d <;> decide

theorem natDigitChars_isDigit (n : Nat) : ∀ c ∈ natDigitChars n, c.isDigit = true := by
  intro c hc
  simp only [natDigitChars, List.mem_map, List.mem_reverse] at hc
  obtain ⟨d, hd, rfl⟩ := hc
  exact digitChar_isDigit d (Nat.digits_lt_base (by norm_num) hd)

theorem natChars_isDigit (n : Nat) : ∀ c ∈ natChars n, c.isDigit = true := by
  intro c hc
  unfold natChars at hc
  by_cases h : n = 0
  · simp [h] at hc
    simp [hc]
  · simp [h] at hc
    exact natDigitChars_isDigit n c hc

theorem parseNatAux_digits (ds : List Char) (hds : ∀ c ∈ ds, c.isDigit = true) :
    ∀ acc cnt rest, noDigitStart rest = true →
      parseNatAux acc cnt (ds ++ rest) =
        (ds.foldl (fun a c => a * 10 + (c.toNat - 48)) acc, cnt + ds.length, rest) := by
  induction ds with
  | nil =>
    intro acc cnt rest hrest
    cases rest with
    | nil => simp [parseNatAux]
    | cons c cs =>
      simp only [noDigitStart, Bool.not_eq_true'] at hrest
      simp [parseNatAux, hrest]
  | cons d ds ih =>
    intro acc cnt rest hrest
    have hd : d.isDigit = true := hds d (by simp)
    simp only [List.cons_append, parseNatAux, hd, if_true, List.append_eq]
    rw [ih (fun c hc => hds c (by simp [hc])) _ _ _ hrest]
    simp only [List.foldl_cons, List.length_cons]
    have : cnt + 1 + ds.length = cnt + (ds.length + 1) := by omega
    rw [this]

theorem foldr_digit_val (l : List Nat) (hl : ∀ d ∈ l, d < 10) :
    l.foldr (fun d a => a * 10 + ((digitChar d).toNat - 48)) 0 = Nat.ofDigits 10 l := by
  induction l with
  | nil => simp [Nat.ofDigits]
  | cons d l ih =>
    rw [List.foldr_cons, Nat.ofDigits_cons, ih (fun x hx => hl x (by simp [hx])),
      digitChar_toNat d (hl d (by simp))]
    omega

theorem foldl_natDigitChars (n : Nat) :
    (natDigitChars n).foldl (fun a c => a * 10 + (c.toNat - 48)) 0 = n := by
  unfold natDigitChars
  rw [List.foldl_map, List.foldl_reverse]
  have := foldr_digit_val (Nat.digits 10 n) (fun d hd => Nat.digits_lt_base (by norm_num) hd)
  rw [this, Nat.ofDigits_digits]

theorem parseNatAux_natChars (n : Nat) (rest : List Char) (hrest : noDigitStart rest = true) :
    parseNatAux 0 0 (natChars n ++ rest) = (n, (natChars n).length, rest) := by
  rw [parseNatAux_digits (natChars n) (natChars_isDigit n) 0 0 rest hrest]
  unfold natChars
  by_cases h : n = 0
  · simp [h]
  · simp only [h, if_false]
    rw [foldl_natDigitChars]
    simp

/-- `v`'s decimal digits left-padded with zeros to exactly `k` characters
(meaningful when `v < 10 ^ k`). -/
def padDigits (k v : Nat) : List Char :=
  List.replicate (k - (Nat.digits 10 v).length) '0' ++ natDigitChars v

theorem digits_len_le_of_lt (v k : Nat) (h : v < 10 ^ k) : (Nat.digits 10 v).length ≤ k := by
  by_cases hv : v = 0
  · simp [hv]
  · rw [Nat.digits_len 10 v (by norm_num) hv]
    have := Nat.log_lt_of_lt_pow hv h
    omega

theorem padDigits_length (k v : Nat) (h : v < 10 ^ k) : (padDigits k v).length = k := by
  unfold padDigits natDigitChars
  rw [List.length_append, List.length_replicate, List.length_map, List.length_reverse]
  have := digits_len_le_of_lt v k h
  omega

theorem padDigits_isDigit (k v : Nat) : ∀ c ∈ padDigits k v, c.isDigit = true := by
  intro c hc
  unfold padDigits at hc
  rw [List.mem_append] at hc
  rcases hc with hc | hc
  · rw [List.eq_of_mem_replicate hc]
    decide
  · exact natDigitChars_isDigit v c hc

theorem foldl_digits_replicate_zero (m : Nat) :
    (List.replicate m '0').foldl (fun a c => a * 10 + (c.toNat - 48)) 0 = 0 := by
  induction m with
  | zero => rfl
  | succ m ih =>
    rw [List.replicate_succ, List.foldl_cons]
    exact ih

theorem foldl_padDigits (k v : Nat) :
    (padDigits k v).foldl (fun a c => a * 10 + (c.toNat - 48)) 0 = v := by
  unfold padDigits
  rw [List.foldl_append, foldl_digits_replicate_zero, foldl_natDigitChars]

theorem parseNatAux_padDigits (k v : Nat) (h : v < 10 ^ k) (rest : List Char)
    (hrest : noDigitStart rest = true) :
    parseNatAux 0 0 (padDigits k v ++ rest) = (v, k, rest) := by
  rw [parseNatAux_digits _ (padDigits_isDigit k v) 0 0 rest hrest, foldl_padDigits,
    padDigits_length k v h]
  simp

theorem natChars_ne_nil (n : Nat) : natChars n ≠ [] := by
  unfold natChars
  by_cases h : n = 0
  · simp [h]
  · simp only [h, if_false, natDigitChars, ne_eq, List.map_eq_nil_iff, List.reverse_eq_nil_iff]
    exact Nat.digits_ne_nil_iff_ne_zero.mpr h

theorem natChars_cons (n : Nat) : ∃ c t, natChars n = c :: t ∧ c.isDigit = true := by
  cases h : natChars n with
  | nil => exact absurd h (natChars_ne_nil n)
  | cons c t =>
    refine ⟨c, t, rfl, natChars_isDigit n c ?_⟩
    rw [h]
    simp

/-! ## Integer and float literal printing and parsing -/

/-- Decimal rendering of an integer literal, with a leading minus when negative. -/
def intChars (n : Int) : List Char :=
  (if n < 0 then ['-'] else []) ++ natChars n.natAbs

/-- Parse an integer literal: optional minus sign, then a digit run. -/
def parseInt (cs : List Char) : Int × List Char :=
  match cs with
  | [] => (0, [])
  | c :: rest0 =>
    if c = '-' then
      let p := parseNatAux 0 0 rest0
      (-(p.1 : Int), p.2.2)
    else
      let p := parseNatAux 0 0 (c :: rest0)
      ((p.1 : Int), p.2.2)

theorem parseInt_intChars (n : Int) (rest : List Char) (hrest : noDigitStart rest = true) :
    parseInt (intChars n ++ rest) = (n, rest) := by
  unfold intChars
  by_cases hn : n < 0
  · simp only [hn, if_true, List.cons_append, List.nil_append, parseInt, if_pos rfl]
    rw [parseNatAux_natChars n.natAbs rest hrest]
    simp only [Prod.mk.injEq, and_true]
    omega
  · obtain ⟨c, t, hct, hc⟩ := natChars_cons n.natAbs
    simp only [hn, if_false, List.nil_append, hct, List.cons_append, parseInt]
    have hcm : ¬(c = '-') := by
      intro h
      rw [h] at hc
      exact absurd hc (by decide)
    rw [if_neg hcm, ← List.cons_append, ← hct, parseNatAux_natChars n.natAbs rest hrest]
    simp only [Prod.mk.injEq, and_true]
    omega

/-- Unsigned decimal rendering of the value `v / 10 ^ s`: the digits of `v`
with a decimal point `s` places from the right (plain digits when `s = 0`). -/
def ufloatChars (v s : Nat) : List Char :=
  if s = 0 then natChars v
  else natChars (v / 10 ^ s) ++ '.' :: padDigits s (v % 10 ^ s)

/-- Decimal rendering of a `PyFloat` literal as it appears in the JSON blob. -/
def floatChars (f : PyFloat) : List Char :=
  (if f.mantissa < 0 then ['-'] else []) ++ ufloatChars f.mantissa.natAbs f.scale

/-- `true` when the character list does not continue a number literal
(neither a digit nor a decimal point). -/
def numBoundary (cs : List Char) : Bool :=
  match cs with
  | [] => true
  | c :: _ => !c.isDigit && c != '.'

theorem noDigitStart_of_numBoundary (cs : List Char) (h : numBoundary cs = true) :
    noDigitStart cs = true := by
  cases cs with
  | nil => rfl
  | cons c t =>
    simp only [numBoundary, Bool.and_eq_true] at h
    simp [noDigitStart, h.1]

/-- Parse an unsigned float literal: a digit run, then optionally a decimal
point and a second digit run; returns the mantissa, the scale, and the tail. -/
def parseUFloat (cs : List Char) : Nat × Nat × List Char :=
  let p := parseNatAux 0 0 cs
  match p.2.2 with
  | [] => (p.1, 0, [])
  | d :: r2 =>
    if d = '.' then
      let q := parseNatAux 0 0 r2
      (p.1 * 10 ^ q.2.1 + q.1, q.2.1, q.2.2)
    else (p.1, 0, d :: r2)

/-- Parse a float literal: optional minus sign, then an unsigned float. -/
def parseFloat (cs : List Char) : PyFloat × List Char :=
  match cs with
  | [] => (⟨0, 0⟩, [])
  | c :: rest0 =>
    if c = '-' then
      let p := parseUFloat rest0
      (⟨-(p.1 : Int), p.2.1⟩, p.2.2)
    else
      let p := parseUFloat (c :: rest0)
      (⟨(p.1 : Int), p.2.1⟩, p.2.2)

theorem parseUFloat_ufloatChars (v s : Nat) (rest : List Char)
    (hrest : numBoundary rest = true) :
    parseUFloat (ufloatChars v s ++ rest) = (v, s, rest) := by
  unfold ufloatChars
  by_cases hs : s = 0
  · simp only [hs, if_true]
    unfold parseUFloat
    rw [parseNatAux_natChars v rest (noDigitStart_of_numBoundary rest hrest)]
    cases rest with
    | nil => rfl
    | cons d r2 =>
      simp only [numBoundary, Bool.and_eq_true, bne_iff_ne, ne_eq] at hrest
      simp [hrest.2]
  · simp only [hs, if_false, List.append_assoc, List.cons_append]
    unfold parseUFloat
    rw [parseNatAux_natChars (v / 10 ^ s) _ (by rfl)]
    simp only [if_pos rfl]
    rw [parseNatAux_padDigits s (v % 10 ^ s)
      (Nat.mod_lt v (Nat.pos_pow_of_pos s (by norm_num))) rest
      (noDigitStart_of_numBoundary rest hrest)]
    simp only [Prod.mk.injEq, and_true, and_self]
    rw [Nat.div_add_mod']
    simp

theorem ufloatChars_cons (v s : Nat) : ∃ c t, ufloatChars v s = c :: t ∧ c.isDigit = true := by
  unfold ufloatChars
  by_cases hs : s = 0
  · simp only [hs, if_true]
    exact natChars_cons v
  · simp only [hs, if_false]
    obtain ⟨c, t, hct, hc⟩ := natChars_cons (v / 10 ^ s)
    exact ⟨c, t ++ '.' :: padDigits s (v % 10 ^ s), by rw [hct]; rfl, hc⟩

theorem parseFloat_floatChars (f : PyFloat) (rest : List Char)
    (hrest : numBoundary rest = true) :
    parseFloat (floatChars f ++ rest) = (f, rest) := by
  obtain ⟨m, s⟩ := f
  unfold floatChars
  by_cases hm : m < 0
  · simp only [hm, if_true, List.cons_append, List.nil_append, parseFloat, if_pos rfl]
    rw [parseUFloat_ufloatChars m.natAbs s rest hrest]
    simp only [Prod.mk.injEq, PyFloat.mk.injEq, and_true, and_self]
    omega
  · obtain ⟨c, t, hct, hc⟩ := ufloatChars_cons m.natAbs s
    simp only [hm, if_false, List.nil_append, hct, List.cons_append, parseFloat]
    have hcm : ¬(c = '-') := by
      intro h
      rw [h] at hc
      exact absurd hc (by decide)
    rw [if_neg hcm, ← List.cons_append, ← hct, parseUFloat_ufloatChars m.natAbs s rest hrest]
    simp only [Prod.mk.injEq, PyFloat.mk.injEq, and_true, and_self]
    omega

/-! ## JSON string literal printing and parsing -/

/-- Lowercase hex digit character for `d < 16`. -/
def hexChar (d : Nat) : Char := if d < 10 then Char.ofNat (48 + d) else Char.ofNat (87 + d)

/-- Numeric value of a hex digit character. -/
def hexVal (c : Char) : Option Nat :=
  if 48 ≤ c.toNat ∧ c.toNat ≤ 57 then some (c.toNat - 48)
  else if 97 ≤ c.toNat ∧ c.toNat ≤ 102 then some (c.toNat - 87)
  else if 65 ≤ c.toNat ∧ c.toNat ≤ 70 then some (c.toNat - 55)
  else none

theorem hexVal_hexChar (d : Nat) (hd : d < 16) : hexVal (hexChar d) = some d := by
  interval_cases d <;> decide

/-- JSON escaping of one character: quotes and backslashes get a backslash
escape, control characters a four-digit hex escape, all else is literal. -/
def escChar (c : Char) : List Char :=
  if c = '"' then ['\\', '"']
  else if c = '\\' then ['\\', '\\']
  else if c.toNat < 32 then ['\\', 'u', '0', '0', hexChar (c.toNat / 16), hexChar (c.toNat % 16)]
  else [c]

/-- JSON escaping of a string body. -/
def escChars : List Char → List Char
  | [] => []
  | c :: cs => escChar c ++ escChars cs

/-- Undo one `escChar` escape after a backslash: returns the decoded character
and the unconsumed tail. -/
def parseEscape (cs : List Char) : Option (Char × List Char) :=
  match cs with
  | [] => none
  | e :: rest =>
    if e = '"' then some ('"', rest)
    else if e = '\\' then some ('\\', rest)
    else if e = 'u' then
      match rest with
      | h1 :: h2 :: h3 :: h4 :: rest2 =>
        match hexVal h1, hexVal h2, hexVal h3, hexVal h4 with
        | some a, some b, some x, some y =>
          some (Char.ofNat (((a * 16 + b) * 16 + x) * 16 + y), rest2)
        | _, _, _, _ => none
      | _ => none
    else none

theorem parseEscape_length (cs : List Char) (d : Char) (rest2 : List Char)
    (h : parseEscape cs = some (d, rest2)) : rest2.length < cs.length := by
  cases cs with
  | nil => exact absurd h (by simp [parseEscape])
  | cons e rest =>
    simp only [parseEscape] at h
    split_ifs at h with h1 h2 h3
    · injection h with h'
      injection h' with ha hb
      subst hb
      simp
    · injection h with h'
      injection h' with ha hb
      subst hb
      simp
    · split at h
      · split at h
        · injection h with h'
          injection h' with ha hb
          subst hb
          simp only [List.length_cons]
          omega
        · exact absurd h (by simp)
      · exact absurd h (by simp)

/-- Parse a JSON string body up to its closing quote, undoing `escChar`. -/
def parseStrBody (cs : List Char) : Option (List Char × List Char) :=
  match cs with
  | [] => none
  | c :: rest =>
    if c = '"' then some ([], rest)
    else if c = '\\' then
      match hpe : parseEscape rest with
      | none => none
      | some (d, rest2) => (parseStrBody rest2).map (fun p => (d :: p.1, p.2))
    else (parseStrBody rest).map (fun p => (c :: p.1, p.2))
termination_by cs.length
decreasing_by
  · have := parseEscape_length rest d rest2 hpe
    simp only [List.length_cons]
    omega
  · simp

theorem parseStrBody_quote (t : List Char) : parseStrBody ('"' :: t) = some ([], t) := by
  rw [parseStrBody]
  simp

theorem parseStrBody_cons (c : Char) (hq : ¬c = '"') (hb : ¬c = '\\') (t : List Char) :
    parseStrBody (c :: t) = (parseStrBody t).map (fun p => (c :: p.1, p.2)) := by
  rw [parseStrBody]
  rw [if_neg hq, if_neg hb]

theorem parseStrBody_esc (t : List Char) (d : Char) (rest2 : List Char)
    (h : parseEscape t = some (d, rest2)) :
    parseStrBody ('\\' :: t) = (parseStrBody rest2).map (fun p => (d :: p.1, p.2)) := by
  rw [parseStrBody]
  have hq : ¬(('\\' : Char) = '"') := by decide
  rw [if_neg hq, if_pos rfl]
  split
  · rename_i heq
    rw [heq] at h
    exact absurd h (by simp)
  · rename_i d' rest2' heq
    rw [heq] at h
    injection h with h'
    injection h' with ha hb
    subst ha
    subst hb
    rfl

theorem parseEscape_quote (t : List Char) : parseEscape ('"' :: t) = some ('"', t) := rfl

theorem parseEscape_backslash (t : List Char) :
    parseEscape ('\\' :: t) = some ('\\', t) := rfl

theorem parseEscape_hex (h1 h2 h3 h4 : Char) (a b x y : Nat) (t : List Char)
    (e1 : hexVal h1 = some a) (e2 : hexVal h2 = some b) (e3 : hexVal h3 = some x)
    (e4 : hexVal h4 = some y) :
    parseEscape ('u' :: h1 :: h2 :: h3 :: h4 :: t) =
      some (Char.ofNat (((a * 16 + b) * 16 + x) * 16 + y), t) := by
  unfold parseEscape
  simp [e1, e2, e3, e4]

theorem parseStrBody_escChars (cs : List Char) (rest : List Char) :
    parseStrBody (escChars cs ++ '"' :: rest) = some (cs, rest) := by
  induction cs with
  | nil =>
    show parseStrBody ('"' :: rest) = _
    rw [parseStrBody_quote]
  | cons c cs ih =>
    show parseStrBody ((escChar c ++ escChars cs) ++ '"' :: rest) = _
    rw [List.append_assoc]
    by_cases h1 : c = '"'
    · subst h1
      have hE : escChar '"' = ['\\', '"'] := by decide
      rw [hE]
      simp only [List.cons_append, List.singleton_append, List.nil_append]
      rw [parseStrBody_esc _ _ _ (parseEscape_quote _), ih]
      rfl
    · by_cases h2 : c = '\\'
      · subst h2
        have hE : escChar '\\' = ['\\', '\\'] := by decide
        rw [hE]
        simp only [List.cons_append, List.singleton_append, List.nil_append]
        rw [parseStrBody_esc _ _ _ (parseEscape_backslash _), ih]
        rfl
      · by_cases h3 : c.toNat < 32
        · have hE : escChar c =
              ['\\', 'u', '0', '0', hexChar (c.toNat / 16), hexChar (c.toNat % 16)] := by
            unfold escChar
            rw [if_neg h1, if_neg h2, if_pos h3]
          rw [hE]
          simp only [List.cons_append, List.nil_append]
          rw [parseStrBody_esc _ _ _ (parseEscape_hex _ _ _ _ 0 0 (c.toNat / 16)
            (c.toNat % 16) _ (by decide) (by decide) (hexVal_hexChar _ (by omega))
            (hexVal_hexChar _ (Nat.mod_lt _ (by norm_num)))), ih]
          have hc : (((0 * 16 + 0) * 16 + c.toNat / 16) * 16 + c.toNat % 16) = c.toNat := by
            omega
          rw [hc, Char.ofNat_toNat]
          rfl
        · have hE : escChar c = [c] := by
            unfold escChar
            rw [if_neg h1, if_neg h2, if_neg h3]
          rw [hE]
          simp only [List.singleton_append, List.nil_append]
          rw [parseStrBody_cons c h1 h2, ih]
          rfl

/-! ## The JSON blob for line_items (tools.py line 62)

`json.dumps([item.model_dump() for item in receipt_obj.line_items])` renders
each item as an object with keys description, quantity, price in declaration
order, with the default separators. -/

/-- JSON string literal for `s`. -/
def dumpStringChars (s : String) : List Char := '"' :: (escChars s.data ++ ['"'])

/-- Parse a JSON string literal. -/
def parseJString : List Char → Option (String × List Char)
  | [] => none
  | c :: rest =>
    if c = '"' then (parseStrBody rest).map (fun p => (String.mk p.1, p.2))
    else none

theorem parseJString_dumpStringChars (s : String) (rest : List Char) :
    parseJString (dumpStringChars s ++ rest) = some (s, rest) := by
  unfold dumpStringChars
  rw [List.cons_append, List.append_assoc, List.singleton_append, parseJString,
    if_pos rfl, parseStrBody_escChars]
  rfl

/-- Consume an exact literal token, returning the tail. -/
def expectChars : List Char → List Char → Option (List Char)
  | [], cs => some cs
  | _ :: _, [] => none
  | p :: ps, c :: cs => if c = p then expectChars ps cs else none

theorem expectChars_append (p rest : List Char) : expectChars p (p ++ rest) = some rest := by
  induction p with
  | nil => rfl
  | cons c ps ih =>
    rw [List.cons_append, expectChars, if_pos rfl]
    exact ih

/-- The literal key tokens of the serialized object, in `model_dump` order. -/
def tokDescription : List Char := "\x7b\"description\": ".data

def tokQuantity : List Char := ", \"quantity\": ".data

def tokPrice : List Char := ", \"price\": ".data

/-- The JSON object text for one line item. -/
def lineItemChars (it : LineItem) : List Char :=
  tokDescription ++ dumpStringChars it.description ++ tokQuantity ++ intChars it.quantity ++
    tokPrice ++ floatChars it.price ++ ['\x7d']

/-- Parse one serialized line-item object. -/
def parseLineItem (cs : List Char) : Option (LineItem × List Char) :=
  (expectChars tokDescription cs).bind (fun cs1 =>
    (parseJString cs1).bind (fun pd =>
      (expectChars tokQuantity pd.2).bind (fun cs3 =>
        (expectChars tokPrice (parseInt cs3).2).bind (fun cs5 =>
          (expectChars ['\x7d'] (parseFloat cs5).2).map
            (fun cs7 => (⟨pd.1, (parseInt cs3).1, (parseFloat cs5).1⟩, cs7))))))

theorem parseLineItem_chars (it : LineItem) (rest : List Char) :
    parseLineItem (lineItemChars it ++ rest) = some (it, rest) := by
  obtain ⟨d, q, p⟩ := it
  unfold lineItemChars parseLineItem
  simp only [List.append_assoc, List.cons_append, List.singleton_append]
  rw [expectChars_append]
  simp only [Option.some_bind]
  rw [parseJString_dumpStringChars]
  simp only [Option.some_bind]
  rw [expectChars_append]
  simp only [Option.some_bind]
  rw [parseInt_intChars q _ (by rfl)]
  simp only []
  rw [expectChars_append]
  simp only [Option.some_bind]
  rw [parseFloat_floatChars p _ (by rfl)]
  simp only [List.nil_append]
  rw [expectChars, if_pos rfl, expectChars]
  rfl

/-- The comma-space-joined object texts of the items, in order. -/
def itemsChars : List LineItem → List Char
  | [] => []
  | [x] => lineItemChars x
  | x :: y :: ys => lineItemChars x ++ ',' :: ' ' :: itemsChars (y :: ys)

/-- The full JSON array text for a line-item list. -/
def lineItemsChars (xs : List LineItem) : List Char := '[' :: (itemsChars xs ++ [']'])

/-- The JSON text blob for `line_items` as built at tools.py line 62:
`json.dumps([item.model_dump() for item in receipt_obj.line_items])`. -/
def dumpLineItems (xs : List LineItem) : String := String.mk (lineItemsChars xs)

/-- Parse one or more comma-separated line-item objects followed by the
closing bracket; the fuel bounds the number of items. -/
def parseItemsLoop (fuel : Nat) (cs : List Char) : Option (List LineItem × List Char) :=
  match fuel with
  | 0 => none
  | fuel + 1 =>
    (parseLineItem cs).bind (fun pit =>
      match pit.2 with
      | [] => none
      | c :: cs3 =>
        if c = ']' then some ([pit.1], cs3)
        else if c = ',' then
          match cs3 with
          | [] => none
          | c2 :: cs4 =>
            if c2 = ' ' then (parseItemsLoop fuel cs4).map (fun pr => (pit.1 :: pr.1, pr.2))
            else none
        else none)

/-- Parse a JSON array of line-item objects, returning the tail. -/
def parseLineItemsChars (cs : List Char) : Option (List LineItem × List Char) :=
  match cs with
  | [] => none
  | c :: cs1 =>
    if c = '[' then
      match cs1 with
      | [] => none
      | d :: cs2 => if d = ']' then some ([], cs2) else parseItemsLoop (cs1.length + 1) cs1
    else none

/-- Deserialization of the blob (json.loads followed by reading each object
back as a LineItem): succeeds only when the whole text is consumed. -/
def parseLineItems (s : String) : Option (List LineItem) :=
  (parseLineItemsChars s.data).bind (fun p => if p.2 = [] then some p.1 else none)

theorem lineItemChars_cons (x : LineItem) : ∃ t, lineItemChars x = '\x7b' :: t :=
  ⟨_, rfl⟩

theorem itemsChars_length_ge (xs : List LineItem) : xs.length ≤ (itemsChars xs).length := by
  induction xs with
  | nil => simp [itemsChars]
  | cons x xs ih =>
    obtain ⟨t, ht⟩ := lineItemChars_cons x
    cases xs with
    | nil =>
      rw [itemsChars, ht]
      simp
    | cons y ys =>
      rw [itemsChars, ht]
      simp only [List.length_cons, List.cons_append, List.length_append] at ih ⊢
      omega

theorem parseItemsLoop_items (xs : List LineItem) (hxs : xs ≠ []) :
    ∀ fuel, xs.length < fuel → ∀ rest,
      parseItemsLoop fuel (itemsChars xs ++ ']' :: rest) = some (xs, rest) := by
  induction xs with
  | nil => exact absurd rfl hxs
  | cons x xs ih =>
    intro fuel hfuel rest
    cases fuel with
    | zero => omega
    | succ fuel =>
      cases xs with
      | nil =>
        rw [itemsChars, parseItemsLoop, parseLineItem_chars x (']' :: rest)]
        simp
      | cons y ys =>
        rw [itemsChars, parseItemsLoop, List.append_assoc, List.cons_append,
          List.cons_append, parseLineItem_chars x (',' :: ' ' :: (itemsChars (y :: ys) ++ ']' :: rest))]
        simp only [Option.some_bind]
        have hne : ¬((',' : Char) = ']') := by decide
        rw [if_neg hne]
        simp only [if_true]
        rw [ih (by simp) fuel (by simp at hfuel ⊢; omega) rest]
        rfl

theorem parseLineItemsChars_dump (xs : List LineItem) (rest : List Char) :
    parseLineItemsChars ('[' :: (itemsChars xs ++ ']' :: rest)) = some (xs, rest) := by
  cases xs with
  | nil =>
    rw [itemsChars]
    simp [parseLineItemsChars]
  | cons x xs =>
    obtain ⟨t, ht⟩ := lineItemChars_cons x
    have hshape : itemsChars (x :: xs) ++ ']' :: rest = '\x7b' :: (t ++ ']' :: rest) ∨
        ∃ u, itemsChars (x :: xs) ++ ']' :: rest = '\x7b' :: u := by
      right
      cases xs with
      | nil =>
        rw [itemsChars, ht]
        exact ⟨_, rfl⟩
      | cons y ys =>
        rw [itemsChars, ht]
        exact ⟨_, rfl⟩
    rcases hshape with h | ⟨u, hu⟩
    · rw [h]
      have : parseLineItemsChars ('[' :: '\x7b' :: (t ++ ']' :: rest)) =
          parseItemsLoop (('\x7b' :: (t ++ ']' :: rest)).length + 1) ('\x7b' :: (t ++ ']' :: rest)) := by
        rw [parseLineItemsChars]
        simp
      rw [this, ← h, parseItemsLoop_items (x :: xs) (by simp) _ ?_ rest]
      rw [h]
      simp only [List.length_cons, List.length_append]
      have h1 := itemsChars_length_ge (x :: xs)
      have h2 : (itemsChars (x :: xs) ++ ']' :: rest).length = ('\x7b' :: (t ++ ']' :: rest)).length := by
        rw [h]
      simp only [List.length_cons, List.length_append] at h1 h2 ⊢
      omega
    · rw [hu]
      have : parseLineItemsChars ('[' :: '\x7b' :: u) =
          parseItemsLoop (('\x7b' :: u).length + 1) ('\x7b' :: u) := by
        rw [parseLineItemsChars]
        simp
      rw [this, ← hu, parseItemsLoop_items (x :: xs) (by simp) _ ?_ rest]
      have h1 := itemsChars_length_ge (x :: xs)
      have h2 : (itemsChars (x :: xs) ++ ']' :: rest).length = ('\x7b' :: u).length := by
        rw [hu]
      simp only [List.length_cons, List.length_append] at h1 h2 ⊢
      omega

theorem parseLineItems_dumpLineItems (xs : List LineItem) :
    parseLineItems (dumpLineItems xs) = some xs := by
  unfold parseLineItems dumpLineItems
  show (parseLineItemsChars (lineItemsChars xs)).bind _ = _
  unfold lineItemsChars
  have : itemsChars xs ++ [']'] = itemsChars xs ++ ']' :: [] := rfl
  rw [this, parseLineItemsChars_dump xs []]
  rfl

/-! ## Python values reaching the tool, and pydantic re-validation

The ADK passes the tool's `receipt` argument as a Python dict; tools.py
line 22 re-validates it with `Receipt(**receipt)`. -/

/-- A Python value as it may appear in the dict the tool receives. -/
inductive PyVal where
  | vstr (s : String)
  | vint (n : Int)
  | vfloat (f : PyFloat)
  | vlist (xs : List PyVal)
  | vdict (fields : List (String × PyVal))
  | vnone

/-- A Python dict with string keys. -/
def PyDict := List (String × PyVal)

/-- Dict lookup by key. -/
def dictGet : PyDict → String → Option PyVal
  | [], _ => none
  | (k, v) :: rest, key => if k = key then some v else dictGet rest key

/-- Pydantic validation of a required `str` field. -/
def getStr (d : PyDict) (k : String) : Except String String :=
  match dictGet d k with
  | some (.vstr s) => .ok s
  | some _ => .error ("Input should be a valid string: " ++ k)
  | none => .error ("Field required: " ++ k)

/-- Pydantic validation of a required `int` field. -/
def getInt (d : PyDict) (k : String) : Except String Int :=
  match dictGet d k with
  | some (.vint n) => .ok n
  | some _ => .error ("Input should be a valid integer: " ++ k)
  | none => .error ("Field required: " ++ k)

/-- Pydantic validation of a required `float` field (an int coerces). -/
def getFloat (d : PyDict) (k : String) : Except String PyFloat :=
  match dictGet d k with
  | some (.vfloat f) => .ok f
  | some (.vint n) => .ok ⟨n, 0⟩
  | some _ => .error ("Input should be a valid number: " ++ k)
  | none => .error ("Field required: " ++ k)

/-- Pydantic validation of the `Optional[str]` category field: an absent key
takes the declared default `None` (pydantic_model.py line 14). -/
def getOptStr (d : PyDict) (k : String) : Except String (Option String) :=
  match dictGet d k with
  | none => .ok none
  | some .vnone => .ok none
  | some (.vstr s) => .ok (some s)
  | some _ => .error ("Input should be a valid string: " ++ k)

/-- Pydantic validation of one line item (pydantic_model.py, `LineItem`). -/
def validateLineItem (v : PyVal) : Except String LineItem :=
  match v with
  | .vdict d =>
    (getStr d "description").bind (fun s =>
      (getInt d "quantity").bind (fun q =>
        (getFloat d "price").map (fun p => ⟨s, q, p⟩)))
  | _ => .error "Input should be a valid dictionary: line item"

/-- Pydantic validation of each element of the `line_items` list, in order. -/
def validateLineItems : List PyVal → Except String (List LineItem)
  | [] => .ok []
  | v :: rest =>
    (validateLineItem v).bind (fun it =>
      (validateLineItems rest).map (fun its => it :: its))

/-- Pydantic validation of the required `line_items` list field. -/
def getLineItems (d : PyDict) : Except String (List LineItem) :=
  match dictGet d "line_items" with
  | some (.vlist xs) => validateLineItems xs
  | some _ => .error "Input should be a valid list: line_items"
  | none => .error "Field required: line_items"

/-- The pydantic re-validation `Receipt(**receipt)` at tools.py line 22. -/
def validateReceipt (d : PyDict) : Except String Receipt :=
  (getStr d "vendor_name").bind (fun vn =>
    (getStr d "transaction_date").bind (fun td =>
      (getFloat d "total_amount").bind (fun ta =>
        (getLineItems d).bind (fun lis =>
          (getOptStr d "category").map (fun cat => ⟨vn, td, ta, lis, cat⟩)))))

/-- The dict form of one line item, as `model_dump` renders it. -/
def lineItemToPy (it : LineItem) : PyVal :=
  .vdict [("description", .vstr it.description), ("quantity", .vint it.quantity),
    ("price", .vfloat it.price)]

/-- The dict form of a receipt, as the ADK passes it to the tool. -/
def receiptToDict (r : Receipt) : PyDict :=
  [("vendor_name", .vstr r.vendor_name), ("transaction_date", .vstr r.transaction_date),
    ("total_amount", .vfloat r.total_amount),
    ("line_items", .vlist (r.line_items.map lineItemToPy)),
    ("category", match r.category with | some c => .vstr c | none => .vnone)]

/-! ## The BigQuery table schema and row (tools.py lines 47-69) -/

/-- A BigQuery column mode. -/
inductive FieldMode where
  | required
  | nullable
  deriving DecidableEq, Repr

/-- One BigQuery schema column. -/
structure SchemaField where
  name : String
  fieldType : String
  mode : FieldMode
  deriving DecidableEq, Repr

/-- The fixed five-column schema of the expenses table (tools.py lines 48-54). -/
def expensesSchema : List SchemaField :=
  [⟨"vendor_name", "STRING", .required⟩, ⟨"transaction_date", "DATE", .required⟩,
    ⟨"total_amount", "FLOAT", .required⟩, ⟨"category", "STRING", .required⟩,
    ⟨"line_items", "STRING", .nullable⟩]

/-- The row passed to `insert_rows_json` (tools.py lines 63-69). The category
column carries the receipt's possibly-`None` category; the line_items column
carries the JSON blob (or `None`, which this program never produces). -/
structure Row where
  vendor_name : String
  transaction_date : String
  total_amount : PyFloat
  category : Option String
  line_items : Option String
  deriving DecidableEq, Repr

/-- Construction of the row to insert (tools.py lines 62-69). -/
def buildRow (r : Receipt) : Row :=
  { vendor_name := r.vendor_name
    transaction_date := r.transaction_date
    total_amount := r.total_amount
    category := r.category
    line_items := some (dumpLineItems r.line_items) }

/-! ## The BigQuery client as an explicit behaviour -/

/-- One possible behaviour of the BigQuery client during a single tool run:
for each call site, either a normal return or a raised exception (carried as
its message). `insertRows` returns the error list on normal return. -/
structure ClientBehavior where
  ctor : Except String Unit
  getDataset : Except String Unit
  createDataset : Except String Unit
  getTable : Except String Unit
  createTable : Except String Unit
  insertRows : Except String (List String)

/-- A client call made by the tool, in order; the insert call records the
submitted row. -/
inductive Call where
  | clientCtor
  | getDataset
  | createDataset
  | getTable
  | createTable
  | insertRows (row : Row)
  deriving DecidableEq, Repr

/-- The structured result dict of the tool: either
`(status success, record_id ...)` or `(status error, message ...)`. -/
inductive LogResult where
  | success (record_id : String)
  | error (message : String)
  deriving DecidableEq, Repr

/-- Python `str()` of the error list returned by `insert_rows_json` at
tools.py line 78 (elements kept as their opaque repr text). -/
def pyStrList (errs : List String) : String :=
  "[" ++ String.intercalate ", " errs ++ "]"

/-- One try/except ensure step (tools.py lines 36-41 and 43-57): try the get
call; on any exception fall back to the create call, whose own exception
propagates. Returns the outcome and the calls made. -/
def ensurePair (getRes createRes : Except String Unit) (gc cc : Call) :
    Except String Unit × List Call :=
  match getRes with
  | .ok _ => (.ok (), [gc])
  | .error _ =>
    match createRes with
    | .ok _ => (.ok (), [gc, cc])
    | .error e => (.error e, [gc, cc])

/-- The body of `log_expense_to_bigquery` (tools.py lines 19-78) inside the
outer `try`: the `Except` layer carries any uncaught Python exception, and
the call list records every client call made. The inner try/except around
`Receipt(**receipt)` (lines 21-26) already converts validation failures to a
structured error return. -/
def logExpenseInner (raw : PyDict) (b : ClientBehavior) : Except String LogResult × List Call :=
  match validateReceipt raw with
  | .error e => (.ok (.error ("Invalid receipt data structure: " ++ e)), [])
  | .ok robj =>
    match b.ctor with
    | .error e => (.error e, [.clientCtor])
    | .ok _ =>
      match ensurePair b.getDataset b.createDataset .getDataset .createDataset with
      | (.error e, cs) => (.error e, .clientCtor :: cs)
      | (.ok _, cs1) =>
        match ensurePair b.getTable b.createTable .getTable .createTable with
        | (.error e, cs) => (.error e, .clientCtor :: cs1 ++ cs)
        | (.ok _, cs2) =>
          match b.insertRows with
          | .error e => (.error e, .clientCtor :: cs1 ++ cs2 ++ [.insertRows (buildRow robj)])
          | .ok errs =>
            if errs = [] then
              (.ok (.success "simulated_id_12345"),
                .clientCtor :: cs1 ++ cs2 ++ [.insertRows (buildRow robj)])
            else
              (.ok (.error (pyStrList errs)),
                .clientCtor :: cs1 ++ cs2 ++ [.insertRows (buildRow robj)])

/-- The tool's returned dict (tools.py lines 18-81): the top-level
`except Exception as e` converts any uncaught exception into
`(status error, message str(e))`. -/
def log_expense_to_bigquery (raw : PyDict) (b : ClientBehavior) : LogResult :=
  match (logExpenseInner raw b).1 with
  | .ok res => res
  | .error e => .error e

/-- The client calls the tool makes during a run. -/
def logExpenseCalls (raw : PyDict) (b : ClientBehavior) : List Call :=
  (logExpenseInner raw b).2

/-! ## Store-state model of the provisioning logic (for idempotence) -/

/-- Abstract store state: the datasets and tables (with schemas) that exist.
`get_dataset`/`get_table` raise NotFound exactly when the entity is absent;
`create_*` adds it. -/
structure Store where
  datasets : List String
  tables : List (String × String × List SchemaField)
  deriving DecidableEq, Repr

/-- The fixed dataset id (tools.py line 30). -/
def datasetId : String := "finance_data"

/-- The fixed table id (tools.py line 31). -/
def tableId : String := "expenses"

/-- tools.py lines 36-41 against a store state: try `get_dataset`, creating
the dataset only when the get raises NotFound. Returns the new state and
whether a creation happened. -/
def ensureDataset (s : Store) : Store × Bool :=
  if datasetId ∈ s.datasets then (s, false)
  else ({ s with datasets := datasetId :: s.datasets }, true)

/-- Schema lookup of the expenses table. -/
def lookupTable : List (String × String × List SchemaField) → Option (List SchemaField)
  | [] => none
  | (d, t, sch) :: rest => if d = datasetId ∧ t = tableId then some sch else lookupTable rest

/-- tools.py lines 43-57 against a store state: try `get_table`, creating the
table with the fixed five-column schema only when the get raises NotFound. -/
def ensureTable (s : Store) : Store × Bool :=
  match lookupTable s.tables with
  | some _ => (s, false)
  | none => ({ s with tables := (datasetId, tableId, expensesSchema) :: s.tables }, true)

/-- The whole ensure sequence of the tool (dataset then table): the new state
plus whether each creation happened. -/
def ensureDatasetAndTable (s : Store) : Store × Bool × Bool :=
  ((ensureTable (ensureDataset s).1).1, (ensureDataset s).2, (ensureTable (ensureDataset s).1).2)

/-! ## The three-stage pipeline (agent.py) -/

/-- A pipeline stage, named after the sub-agent that performs it. -/
inductive Stage where
  | extraction
  | classification
  | persistence
  deriving DecidableEq, Repr

/-- The orchestrator's sub-agents in declaration order (agent.py lines 83-90:
ocr_extractor_agent, category_classifier_agent, finance_logger_agent). -/
def rootAgentOrder : List Stage := [.extraction, .classification, .persistence]

/-- The external capabilities and the client behaviour for one pipeline run. -/
structure PipelineEnv where
  ocrOutput : PyDict
  classOutput : PyDict
  client : ClientBehavior

/-- Validation of the classification stage's output against
`ClassificationOutput` (agent.py lines 25-26): one required str category. -/
def validateClassification (d : PyDict) : Except String String :=
  getStr d "category"

/-- Modelled from the spec: the orchestrator's merge of the classification
output into the receipt's category before persistence runs (§4.2 — the merge
is the orchestrator's responsibility, the Classification Stage being
read-only on the Receipt; the ADK runtime is not part of src/). -/
def mergeCategory (r : Receipt) (c : String) : Receipt := { r with category := some c }

/-- The outcome of a pipeline run: terminal Failed, or Completed with the
record id the persistence stage confirmed. -/
inductive PipelineOutcome where
  | failed (msg : String)
  | completed (record_id : String)
  deriving DecidableEq, Repr

/-- The trace of one pipeline run: the stages that ran in order, the client
calls made, and the outcome. -/
structure PipelineResult where
  executed : List Stage
  calls : List Call
  outcome : PipelineOutcome
  deriving DecidableEq, Repr

/-- Modelled from the spec: the SequentialAgent runtime (§4.4) runs the three
sub-agents in `rootAgentOrder`, halting at the first stage whose output fails
its schema validation — no later stage runs and no store call is made after a
halt. The persistence stage invokes the tool on the merged receipt; a
structured error result ends the run in Failed. -/
def runPipeline (env : PipelineEnv) : PipelineResult :=
  match validateReceipt env.ocrOutput with
  | .error e => ⟨[.extraction], [], .failed e⟩
  | .ok receipt =>
    match validateClassification env.classOutput with
    | .error e => ⟨[.extraction, .classification], [], .failed e⟩
    | .ok cat =>
      match log_expense_to_bigquery (receiptToDict (mergeCategory receipt cat)) env.client with
      | .success id =>
        ⟨rootAgentOrder,
          logExpenseCalls (receiptToDict (mergeCategory receipt cat)) env.client,
          .completed id⟩
      | .error m =>
        ⟨rootAgentOrder,
          logExpenseCalls (receiptToDict (mergeCategory receipt cat)) env.client,
          .failed m⟩

/-! ## Helper lemmas -/

theorem except_bind_ok {α β : Type} (x : Except String α) (f : α → Except String β) (b : β)
    (h : x.bind f = .ok b) : ∃ a, x = .ok a ∧ f a = .ok b := by
  cases x with
  | error e => simp [Except.bind] at h
  | ok a => exact ⟨a, rfl, h⟩

theorem except_map_ok {α β : Type} (x : Except String α) (f : α → β) (b : β)
    (h : x.map f = .ok b) : ∃ a, x = .ok a ∧ f a = b := by
  cases x with
  | error e => simp [Except.map] at h
  | ok a =>
    refine ⟨a, rfl, ?_⟩
    simp [Except.map] at h
    exact h

theorem string_length_zero (s : String) (h : s.length = 0) : s = "" := by
  cases s with
  | mk data =>
    cases data with
    | nil => rfl
    | cons c cs => simp [String.length] at h

theorem append_ne_empty_left (s t : String) (hs : 0 < s.length) : s ++ t ≠ "" := by
  intro h
  have hl := congrArg String.length h
  rw [String.length_append] at hl
  have hz : ("" : String).length = 0 := rfl
  rw [hz] at hl
  omega

theorem pyStrList_ne_empty (errs : List String) : pyStrList errs ≠ "" := by
  unfold pyStrList
  rw [String.append_assoc]
  exact append_ne_empty_left _ _ (by decide)

theorem validateLineItem_toPy (it : LineItem) : validateLineItem (lineItemToPy it) = .ok it :=
  rfl

theorem validateLineItems_map (l : List LineItem) :
    validateLineItems (l.map lineItemToPy) = .ok l := by
  induction l with
  | nil => rfl
  | cons it l ih =>
    show validateLineItems (lineItemToPy it :: l.map lineItemToPy) = _
    rw [validateLineItems, validateLineItem_toPy, ih]
    rfl

theorem validateReceipt_receiptToDict (r : Receipt) :
    validateReceipt (receiptToDict r) = .ok r := by
  obtain ⟨vn, td, ta, li, cat⟩ := r
  cases cat with
  | none =>
    have h : validateReceipt (receiptToDict ⟨vn, td, ta, li, none⟩) =
        (validateLineItems (li.map lineItemToPy)).bind
          (fun lis => .ok ⟨vn, td, ta, lis, none⟩) := rfl
    rw [h, validateLineItems_map]
    rfl
  | some c =>
    have h : validateReceipt (receiptToDict ⟨vn, td, ta, li, some c⟩) =
        (validateLineItems (li.map lineItemToPy)).bind
          (fun lis => .ok ⟨vn, td, ta, lis, some c⟩) := rfl
    rw [h, validateLineItems_map]
    rfl

theorem validateReceipt_ok_parts (d : PyDict) (r : Receipt)
    (h : validateReceipt d = .ok r) :
    getStr d "vendor_name" = .ok r.vendor_name ∧
      getStr d "transaction_date" = .ok r.transaction_date ∧
      getFloat d "total_amount" = .ok r.total_amount ∧
      getLineItems d = .ok r.line_items ∧
      getOptStr d "category" = .ok r.category := by
  unfold validateReceipt at h
  obtain ⟨vn, h1, h⟩ := except_bind_ok _ _ _ h
  obtain ⟨td, h2, h⟩ := except_bind_ok _ _ _ h
  obtain ⟨ta, h3, h⟩ := except_bind_ok _ _ _ h
  obtain ⟨li, h4, h⟩ := except_bind_ok _ _ _ h
  obtain ⟨cat, h5, hr⟩ := except_map_ok _ _ _ h
  subst hr
  exact ⟨h1, h2, h3, h4, h5⟩

theorem validateReceipt_total_present (d : PyDict) (r : Receipt)
    (h : validateReceipt d = .ok r) : dictGet d "total_amount" ≠ none := by
  intro hnone
  have h3 := (validateReceipt_ok_parts d r h).2.2.1
  unfold getFloat at h3
  rw [hnone] at h3
  exact absurd h3 (by simp)

theorem ensurePair_get_ok (cr : Except String Unit) (gc cc : Call) :
    ensurePair (.ok ()) cr gc cc = (.ok (), [gc]) := rfl

theorem logExpenseInner_invalid (raw : PyDict) (b : ClientBehavior) (e : String)
    (hv : validateReceipt raw = .error e) :
    logExpenseInner raw b = (.ok (.error ("Invalid receipt data structure: " ++ e)), []) := by
  unfold logExpenseInner
  rw [hv]

theorem logExpenseInner_insert (raw : PyDict) (b : ClientBehavior) (robj : Receipt)
    (cs1 cs2 : List Call) (errs : List String)
    (hv : validateReceipt raw = .ok robj) (hc : b.ctor = .ok ())
    (hd : ensurePair b.getDataset b.createDataset .getDataset .createDataset = (.ok (), cs1))
    (ht : ensurePair b.getTable b.createTable .getTable .createTable = (.ok (), cs2))
    (hins : b.insertRows = .ok errs) :
    logExpenseInner raw b =
      (if errs = [] then
          (Except.ok (LogResult.success "simulated_id_12345"),
            Call.clientCtor :: cs1 ++ cs2 ++ [Call.insertRows (buildRow robj)])
        else
          (Except.ok (LogResult.error (pyStrList errs)),
            Call.clientCtor :: cs1 ++ cs2 ++ [Call.insertRows (buildRow robj)])) := by
  unfold logExpenseInner
  rw [hv, hc, hd, ht, hins]

theorem logExpenseInner_insertRaise (raw : PyDict) (b : ClientBehavior) (robj : Receipt)
    (cs1 cs2 : List Call) (e : String)
    (hv : validateReceipt raw = .ok robj) (hc : b.ctor = .ok ())
    (hd : ensurePair b.getDataset b.createDataset .getDataset .createDataset = (.ok (), cs1))
    (ht : ensurePair b.getTable b.createTable .getTable .createTable = (.ok (), cs2))
    (hins : b.insertRows = .error e) :
    logExpenseInner raw b =
      (.error e, Call.clientCtor :: cs1 ++ cs2 ++ [Call.insertRows (buildRow robj)]) := by
  unfold logExpenseInner
  rw [hv, hc, hd, ht, hins]

/-! ## Idempotence of the ensure sequence -/

theorem ensureDataset_mem (s : Store) : datasetId ∈ ((ensureDataset s).1).datasets := by
  unfold ensureDataset
  split
  · rename_i h
    exact h
  · simp

theorem ensureDataset_tables (s : Store) : ((ensureDataset s).1).tables = s.tables := by
  unfold ensureDataset
  split <;> rfl

theorem ensureTable_datasets (s : Store) : ((ensureTable s).1).datasets = s.datasets := by
  unfold ensureTable
  split <;> rfl

theorem ensureTable_lookup (s : Store) :
    lookupTable ((ensureTable s).1).tables =
      some (match lookupTable s.tables with
        | some sch => sch
        | none => expensesSchema) := by
  unfold ensureTable
  cases h : lookupTable s.tables with
  | some sch => simp [h]
  | none =>
    simp only [h]
    show lookupTable ((datasetId, tableId, expensesSchema) :: s.tables) = _
    rw [lookupTable, if_pos ⟨rfl, rfl⟩]

theorem ensureDataset_noop (s : Store) (h : datasetId ∈ s.datasets) :
    ensureDataset s = (s, false) := by
  unfold ensureDataset
  rw [if_pos h]

theorem ensureTable_noop (s : Store) (sch : List SchemaField)
    (h : lookupTable s.tables = some sch) : ensureTable s = (s, false) := by
  unfold ensureTable
  rw [h]

theorem runPipeline_ok (env : PipelineEnv) (receipt : Receipt) (cat : String)
    (hv : validateReceipt env.ocrOutput = .ok receipt)
    (hcl : validateClassification env.classOutput = .ok cat) :
    (runPipeline env).executed = rootAgentOrder ∧
    (runPipeline env).calls =
      logExpenseCalls (receiptToDict (mergeCategory receipt cat)) env.client := by
  simp only [runPipeline, hv, hcl]
  split <;> exact ⟨rfl, rfl⟩

/-! ## The claims -/

/-- C1: for every input receipt dict and every behaviour of the data-store
client, the tool returns a structured result — either success with a record
id or error with a message — and any exception raised inside the stage
(carried by the `Except` layer of `logExpenseInner`) is caught by the
top-level handler and converted to the error shape, so no exception reaches
the caller. -/
theorem persistence_result_always_structured (raw : PyDict) (b : ClientBehavior) :
    ((∃ id, log_expense_to_bigquery raw b = .success id) ∨
      (∃ m, log_expense_to_bigquery raw b = .error m)) ∧
    (∀ e, (logExpenseInner raw b).1 = .error e →
      log_expense_to_bigquery raw b = .error e) := by
  constructor
  · cases h : log_expense_to_bigquery raw b with
    | success id => exact Or.inl ⟨id, rfl⟩
    | error m => exact Or.inr ⟨m, rfl⟩
  · intro e he
    unfold log_expense_to_bigquery
    rw [he]

theorem persistence_result_always_structured_witness :
    log_expense_to_bigquery (receiptToDict ⟨"V", "2024-01-01", ⟨1, 0⟩, [], none⟩)
      ⟨.error "boom", .ok (), .ok (), .ok (), .ok (), .ok []⟩ = .error "boom" :=
  (persistence_result_always_structured _ _).2 "boom" rfl

/-- C2: for every valid Receipt value, serializing its line_items to the JSON
text blob exactly as the Persistence Stage does (tools.py line 62) and then
deserializing that blob yields the same sequence of LineItem values, element
by element and in order. -/
theorem line_items_blob_roundtrip (r : Receipt) :
    parseLineItems (dumpLineItems r.line_items) = some r.line_items :=
  parseLineItems_dumpLineItems r.line_items

/-- C6: for every input dict that fails the Receipt re-validation, the tool
returns the error shape with a non-empty message without making a single
client call — no dataset/table provisioning and no insertion — and does not
raise. -/
theorem revalidation_precedes_store (raw : PyDict) (b : ClientBehavior) (e : String)
    (hv : validateReceipt raw = .error e) :
    (∃ m, log_expense_to_bigquery raw b = .error m ∧ m ≠ "") ∧
      logExpenseCalls raw b = [] := by
  have h := logExpenseInner_invalid raw b e hv
  constructor
  · refine ⟨"Invalid receipt data structure: " ++ e, ?_, ?_⟩
    · unfold log_expense_to_bigquery
      rw [h]
    · exact append_ne_empty_left _ _ (by decide)
  · unfold logExpenseCalls
    rw [h]

theorem revalidation_precedes_store_witness :
    (∃ m, log_expense_to_bigquery ([] : PyDict)
        ⟨.ok (), .ok (), .ok (), .ok (), .ok (), .ok []⟩ = .error m ∧ m ≠ "") ∧
    logExpenseCalls ([] : PyDict) ⟨.ok (), .ok (), .ok (), .ok (), .ok (), .ok []⟩ = [] :=
  revalidation_precedes_store _ _ _ rfl

/-- C9: for every receipt that passes re-validation, the line_items column of
the built row is the JSON string — never None — and for the empty line_items
sequence it is the two-character text of an open and a close bracket. -/
theorem line_items_column_never_null (r : Receipt) :
    (buildRow r).line_items = some (dumpLineItems r.line_items) ∧
    (r.line_items = [] →
      (buildRow r).line_items = some "[]" ∧ (dumpLineItems r.line_items).length = 2) := by
  refine ⟨rfl, fun h => ⟨?_, ?_⟩⟩
  · show some (dumpLineItems r.line_items) = some "[]"
    rw [h]
    decide
  · rw [h]
    decide

theorem line_items_column_never_null_witness :
    (buildRow ⟨"V", "d", ⟨0, 0⟩, [], none⟩).line_items = some "[]" :=
  ((line_items_column_never_null ⟨"V", "d", ⟨0, 0⟩, [], none⟩).2 rfl).1

/-- C10: whenever the tool reports success, the record id is the constant
simulated identifier — it is not retrieved from the store nor derived from
the input. -/
theorem record_id_simulated_constant (raw : PyDict) (b : ClientBehavior) (id : String)
    (h : log_expense_to_bigquery raw b = .success id) : id = "simulated_id_12345" := by
  unfold log_expense_to_bigquery at h
  cases hin : (logExpenseInner raw b).1 with
  | error e =>
    rw [hin] at h
    exact absurd h (by simp)
  | ok res =>
    rw [hin] at h
    have h' : res = .success id := h
    unfold logExpenseInner at hin
    rw [h'] at hin
    split at hin
    · injection hin with hres
      exact absurd hres (by simp)
    · split at hin
      · simp at hin
      · split at hin
        · simp at hin
        · split at hin
          · simp at hin
          · split at hin
            · simp at hin
            · split at hin
              · injection hin with hres
                injection hres with hid
                exact hid.symm
              · injection hin with hres
                exact absurd hres (by simp)

theorem record_id_simulated_constant_witness :
    log_expense_to_bigquery (receiptToDict ⟨"V", "d", ⟨1, 0⟩, [], some "Fuel"⟩)
      ⟨.ok (), .ok (), .ok (), .ok (), .ok (), .ok []⟩ = .success "simulated_id_12345" ∧
    "simulated_id_12345" = "simulated_id_12345" :=
  ⟨by decide, record_id_simulated_constant
    (receiptToDict ⟨"V", "d", ⟨1, 0⟩, [], some "Fuel"⟩)
    ⟨.ok (), .ok (), .ok (), .ok (), .ok (), .ok []⟩ "simulated_id_12345" (by decide)⟩

/-- C3: for every receipt that passes re-validation and reaches the insert
call (client construction and both ensure steps return normally), an empty
insert error list yields the success dict with a record id, and a non-empty
one yields a structured error dict with a non-empty message — not a raised
fault. -/
theorem insert_outcome_structured (raw : PyDict) (b : ClientBehavior) (robj : Receipt)
    (cs1 cs2 : List Call) (errs : List String)
    (hv : validateReceipt raw = .ok robj) (hc : b.ctor = .ok ())
    (hd : ensurePair b.getDataset b.createDataset .getDataset .createDataset = (.ok (), cs1))
    (ht : ensurePair b.getTable b.createTable .getTable .createTable = (.ok (), cs2))
    (hins : b.insertRows = .ok errs) :
    (errs = [] → log_expense_to_bigquery raw b = .success "simulated_id_12345") ∧
    (errs ≠ [] → ∃ m, log_expense_to_bigquery raw b = .error m ∧ m ≠ "") := by
  have hrun := logExpenseInner_insert raw b robj cs1 cs2 errs hv hc hd ht hins
  constructor
  · intro h0
    unfold log_expense_to_bigquery
    rw [hrun, if_pos h0]
  · intro hne
    refine ⟨pyStrList errs, ?_, pyStrList_ne_empty errs⟩
    unfold log_expense_to_bigquery
    rw [hrun, if_neg hne]

theorem insert_outcome_structured_witness :
    ∃ m, log_expense_to_bigquery (receiptToDict ⟨"V", "2024-01-01", ⟨1, 0⟩, [], some "Other"⟩)
        ⟨.ok (), .ok (), .ok (), .ok (), .ok (), .ok ["schema mismatch"]⟩ = .error m ∧
      m ≠ "" :=
  (insert_outcome_structured (receiptToDict ⟨"V", "2024-01-01", ⟨1, 0⟩, [], some "Other"⟩)
    ⟨.ok (), .ok (), .ok (), .ok (), .ok (), .ok ["schema mismatch"]⟩
    ⟨"V", "2024-01-01", ⟨1, 0⟩, [], some "Other"⟩ [.getDataset] [.getTable]
    ["schema mismatch"] rfl rfl rfl rfl rfl).2 (by decide)

/-- C4: a pipeline run executes an order-respecting prefix of the fixed stage
sequence Extraction, Classification, Persistence (all three when no stage
fails — no branching or skipping), and when the extraction capability's
output lacks total_amount, only the extraction stage runs and no client call
(in particular no row insertion) is made. -/
theorem pipeline_fixed_order_fail_fast (env : PipelineEnv) :
    ((runPipeline env).executed = rootAgentOrder.take 1 ∨
      (runPipeline env).executed = rootAgentOrder.take 2 ∨
      (runPipeline env).executed = rootAgentOrder) ∧
    (dictGet env.ocrOutput "total_amount" = none →
      (runPipeline env).executed = rootAgentOrder.take 1 ∧ (runPipeline env).calls = []) := by
  constructor
  · unfold runPipeline
    split
    · exact Or.inl rfl
    · split
      · exact Or.inr (Or.inl rfl)
      · split <;> exact Or.inr (Or.inr rfl)
  · intro h0
    have hv : ∃ e, validateReceipt env.ocrOutput = .error e := by
      cases hval : validateReceipt env.ocrOutput with
      | error e => exact ⟨e, rfl⟩
      | ok r => exact absurd h0 (validateReceipt_total_present _ r hval)
    obtain ⟨e, hv⟩ := hv
    unfold runPipeline
    rw [hv]
    exact ⟨rfl, rfl⟩

theorem pipeline_fixed_order_fail_fast_witness :
    (runPipeline ⟨[("vendor_name", PyVal.vstr "V")], [],
        ⟨.ok (), .ok (), .ok (), .ok (), .ok (), .ok []⟩⟩).executed =
      rootAgentOrder.take 1 ∧
    (runPipeline ⟨[("vendor_name", PyVal.vstr "V")], [],
        ⟨.ok (), .ok (), .ok (), .ok (), .ok (), .ok []⟩⟩).calls = [] :=
  (pipeline_fixed_order_fail_fast _).2 rfl

/-- The fixed receipt of the category-propagation property (§8). -/
def superMartReceipt (date : String) (total : PyFloat) : Receipt :=
  ⟨"SuperMart", date, total, [⟨"Milk", 2, ⟨35, 1⟩⟩], none⟩

/-- C5: with the SuperMart receipt (one Milk line item) and a classification
output of Groceries, the persistence stage is invoked on the receipt merged
by the orchestrator (`mergeCategory`, not the classification stage), and the
row it submits to the insert call has category Groceries and the receipt's
total_amount unchanged. -/
theorem category_propagation (date : String) (total : PyFloat) (b : ClientBehavior)
    (hc : b.ctor = .ok ()) (hgd : b.getDataset = .ok ()) (hgt : b.getTable = .ok ()) :
    (runPipeline ⟨receiptToDict (superMartReceipt date total),
        [("category", PyVal.vstr "Groceries")], b⟩).calls =
      logExpenseCalls (receiptToDict
        (mergeCategory (superMartReceipt date total) "Groceries")) b ∧
    Call.insertRows (buildRow (mergeCategory (superMartReceipt date total) "Groceries")) ∈
      (runPipeline ⟨receiptToDict (superMartReceipt date total),
        [("category", PyVal.vstr "Groceries")], b⟩).calls ∧
    (buildRow (mergeCategory (superMartReceipt date total) "Groceries")).category =
      some "Groceries" ∧
    (buildRow (mergeCategory (superMartReceipt date total) "Groceries")).total_amount =
      (superMartReceipt date total).total_amount := by
  have hpipe := runPipeline_ok
    ⟨receiptToDict (superMartReceipt date total), [("category", PyVal.vstr "Groceries")], b⟩
    (superMartReceipt date total) "Groceries" (validateReceipt_receiptToDict _) rfl
  have hd : ensurePair b.getDataset b.createDataset .getDataset .createDataset =
      (.ok (), [.getDataset]) := by
    rw [hgd]
    exact ensurePair_get_ok _ _ _
  have ht : ensurePair b.getTable b.createTable .getTable .createTable =
      (.ok (), [.getTable]) := by
    rw [hgt]
    exact ensurePair_get_ok _ _ _
  have hv' : validateReceipt (receiptToDict
      (mergeCategory (superMartReceipt date total) "Groceries")) =
      .ok (mergeCategory (superMartReceipt date total) "Groceries") :=
    validateReceipt_receiptToDict _
  have hmem : Call.insertRows (buildRow (mergeCategory (superMartReceipt date total)
      "Groceries")) ∈ logExpenseCalls (receiptToDict
        (mergeCategory (superMartReceipt date total) "Groceries")) b := by
    unfold logExpenseCalls
    cases hins : b.insertRows with
    | ok errs =>
      rw [logExpenseInner_insert _ _ _ _ _ errs hv' hc hd ht hins]
      split <;> simp
    | error e =>
      rw [logExpenseInner_insertRaise _ _ _ _ _ e hv' hc hd ht hins]
      simp
  refine ⟨hpipe.2, ?_, rfl, rfl⟩
  rw [hpipe.2]
  exact hmem

theorem category_propagation_witness :
    Call.insertRows (buildRow (mergeCategory (superMartReceipt "2024-01-15" ⟨4530, 2⟩)
        "Groceries")) ∈
      (runPipeline ⟨receiptToDict (superMartReceipt "2024-01-15" ⟨4530, 2⟩),
        [("category", PyVal.vstr "Groceries")],
        ⟨.ok (), .ok (), .ok (), .ok (), .ok (), .ok []⟩⟩).calls ∧
    (buildRow (mergeCategory (superMartReceipt "2024-01-15" ⟨4530, 2⟩)
        "Groceries")).category = some "Groceries" ∧
    (buildRow (mergeCategory (superMartReceipt "2024-01-15" ⟨4530, 2⟩)
        "Groceries")).total_amount = ⟨4530, 2⟩ :=
  ⟨(category_propagation "2024-01-15" ⟨4530, 2⟩
      ⟨.ok (), .ok (), .ok (), .ok (), .ok (), .ok []⟩ rfl rfl rfl).2.1,
    (category_propagation "2024-01-15" ⟨4530, 2⟩
      ⟨.ok (), .ok (), .ok (), .ok (), .ok (), .ok []⟩ rfl rfl rfl).2.2.1,
    (category_propagation "2024-01-15" ⟨4530, 2⟩
      ⟨.ok (), .ok (), .ok (), .ok (), .ok (), .ok []⟩ rfl rfl rfl).2.2.2⟩

/-- C7: the ensure sequence is idempotent: a second run against the state the
first run left behind performs no creation and no change (hence no error),
and when the table was absent initially the schema present after the second
run is the fixed five-column schema the first run established. -/
theorem provisioning_idempotent (s0 : Store) :
    ensureDatasetAndTable ((ensureDatasetAndTable s0).1) =
      ((ensureDatasetAndTable s0).1, false, false) ∧
    (lookupTable s0.tables = none →
      lookupTable ((ensureDatasetAndTable s0).1).tables = some expensesSchema) := by
  have hmem : datasetId ∈ ((ensureDatasetAndTable s0).1).datasets := by
    show datasetId ∈ ((ensureTable (ensureDataset s0).1).1).datasets
    rw [ensureTable_datasets]
    exact ensureDataset_mem s0
  have hlk : lookupTable ((ensureDatasetAndTable s0).1).tables =
      some (match lookupTable ((ensureDataset s0).1).tables with
        | some sch => sch
        | none => expensesSchema) := ensureTable_lookup (ensureDataset s0).1
  have hds : ensureDataset ((ensureDatasetAndTable s0).1) =
      ((ensureDatasetAndTable s0).1, false) := ensureDataset_noop _ hmem
  have hts : ensureTable ((ensureDatasetAndTable s0).1) =
      ((ensureDatasetAndTable s0).1, false) := ensureTable_noop _ _ hlk
  constructor
  · show ((ensureTable (ensureDataset ((ensureDatasetAndTable s0).1)).1).1,
        (ensureDataset ((ensureDatasetAndTable s0).1)).2,
        (ensureTable (ensureDataset ((ensureDatasetAndTable s0).1)).1).2) = _
    rw [hds]
    show ((ensureTable ((ensureDatasetAndTable s0).1)).1, false,
        (ensureTable ((ensureDatasetAndTable s0).1)).2) = _
    rw [hts]
  · intro h0
    rw [ensureDataset_tables, h0] at hlk
    exact hlk

theorem provisioning_idempotent_witness :
    ensureDatasetAndTable ((ensureDatasetAndTable ⟨[], []⟩).1) =
      ((ensureDatasetAndTable ⟨[], []⟩).1, false, false) ∧
    lookupTable ((ensureDatasetAndTable ⟨[], []⟩).1).tables = some expensesSchema :=
  ⟨(provisioning_idempotent ⟨[], []⟩).1, (provisioning_idempotent ⟨[], []⟩).2 rfl⟩

/-- C8: an input dict with no category key still passes re-validation — the
category defaults to None — and the stage proceeds to build and submit a row
whose category column is None, although the table schema declares the
category column REQUIRED; the stage's own validation never rejects a missing
category. -/
theorem category_none_passes_validation (raw : PyDict) (b : ClientBehavior) (robj : Receipt)
    (hcat : dictGet raw "category" = none) (hv : validateReceipt raw = .ok robj)
    (hc : b.ctor = .ok ()) (hgd : b.getDataset = .ok ()) (hgt : b.getTable = .ok ()) :
    robj.category = none ∧ (buildRow robj).category = none ∧
    (⟨"category", "STRING", FieldMode.required⟩ : SchemaField) ∈ expensesSchema ∧
    Call.insertRows (buildRow robj) ∈ logExpenseCalls raw b := by
  have hopt := (validateReceipt_ok_parts raw robj hv).2.2.2.2
  unfold getOptStr at hopt
  rw [hcat] at hopt
  have hnone : robj.category = none := by
    injection hopt with h'
    exact h'.symm
  have hd : ensurePair b.getDataset b.createDataset .getDataset .createDataset =
      (.ok (), [.getDataset]) := by
    rw [hgd]
    exact ensurePair_get_ok _ _ _
  have ht : ensurePair b.getTable b.createTable .getTable .createTable =
      (.ok (), [.getTable]) := by
    rw [hgt]
    exact ensurePair_get_ok _ _ _
  refine ⟨hnone, ?_, by decide, ?_⟩
  · show robj.category = none
    exact hnone
  · unfold logExpenseCalls
    cases hins : b.insertRows with
    | ok errs =>
      rw [logExpenseInner_insert _ _ _ _ _ errs hv hc hd ht hins]
      split <;> simp
    | error e =>
      rw [logExpenseInner_insertRaise _ _ _ _ _ e hv hc hd ht hins]
      simp

theorem category_none_passes_validation_witness :
    (⟨"V", "2024-01-01", ⟨1, 0⟩, [], none⟩ : Receipt).category = none ∧
    (buildRow ⟨"V", "2024-01-01", ⟨1, 0⟩, [], none⟩).category = none ∧
    (⟨"category", "STRING", FieldMode.required⟩ : SchemaField) ∈ expensesSchema ∧
    Call.insertRows (buildRow ⟨"V", "2024-01-01", ⟨1, 0⟩, [], none⟩) ∈
      logExpenseCalls [("vendor_name", PyVal.vstr "V"),
        ("transaction_date", PyVal.vstr "2024-01-01"),
        ("total_amount", PyVal.vfloat ⟨1, 0⟩), ("line_items", PyVal.vlist [])]
        ⟨.ok (), .ok (), .ok (), .ok (), .ok (), .ok []⟩ :=
  category_none_passes_validation
    [("vendor_name", PyVal.vstr "V"), ("transaction_date", PyVal.vstr "2024-01-01"),
      ("total_amount", PyVal.vfloat ⟨1, 0⟩), ("line_items", PyVal.vlist [])]
    ⟨.ok (), .ok (), .ok (), .ok (), .ok (), .ok []⟩
    ⟨"V", "2024-01-01", ⟨1, 0⟩, [], none⟩ rfl rfl rfl rfl rfl

end ExpensePipeline
